import Mathlib

/-!
Shallow embedding of the document-store lifecycle and retrieval-augmented
query engine of this repository, translated from
`qianwen_paper_qa_api.py` (class `QianwenPaperQAAPI`) and
`custom_qwen_embeddings.py` (class `CustomQwenEmbeddings`).

External collaborators (the hashlib MD5 digest, the PDF parser, the
recursive text splitter, the embedding HTTP endpoint and the chat
completion endpoint) are modelled as opaque functions carried by an
`Env` record; everything else is translated line by line from the
Python source.  File bytes are `List Nat`; the on-disk cache layout
(`pdf_embeddings_cache/<hash>`, `metadata.pkl`, the FAISS index files
and the per-hash Chroma collections) is an explicit `Disk` record.
-/

/-- Association-list lookup keyed by strings (models Python dict / path lookup). -/
def lookupA {α : Type} : List (String × α) → String → Option α
  | [], _ => none
  | (k', v) :: rest, k => if k' = k then some v else lookupA rest k

/-- Association-list update: replaces the binding for `k`, or appends it. -/
def setA {α : Type} : List (String × α) → String → α → List (String × α)
  | [], k, v => [(k, v)]
  | (k', v') :: rest, k, v =>
    if k' = k then (k, v) :: rest else (k', v') :: setA rest k v

/-- Idempotent insertion into a set of names (models `mkdir(exist_ok=True)`). -/
def insertS (l : List String) (k : String) : List String :=
  if k ∈ l then l else k :: l

/-- Fuel-driven worker for `chunksOf`; the fuel is an upper bound on the list length. -/
def chunksOfFuel {α : Type} (bs : Nat) : Nat → List α → List (List α)
  | 0, _ => []
  | fuel + 1, xs =>
    if bs = 0 then []
    else if xs.isEmpty then []
    else xs.take bs :: chunksOfFuel bs fuel (xs.drop bs)

/-- Splits `xs` into consecutive chunks of at most `bs` elements: the Python
slicing pattern `for i in range(0, len(xs), bs): xs[i:i+bs]`. -/
def chunksOf {α : Type} (bs : Nat) (xs : List α) : List (List α) :=
  chunksOfFuel bs xs.length xs

/-- `Config` from `qianwen_paper_qa_api.py` (the fields the core reads). -/
structure Config where
  CACHE_DIR : String := "pdf_embeddings_cache"
  FAISS_INDEX_DIR : String := "qianwen_faiss_index"
  CHROMA_DB_DIR : String := "chroma_db"
  CHUNK_SIZE : Nat := 1000
  CHUNK_OVERLAP : Nat := 200
  BATCH_SIZE : Nat := 4
  MAX_RETRIES : Nat := 3
  RETRIEVER_K : Nat := 5
  EMBEDDING_MODEL : String := "text-embedding-v4"
  LLM_MODEL : String := "qwen-plus"
  VECTOR_STORE_TYPE : String := "chroma"
deriving DecidableEq, Repr

/-- The module-level `config = Config()` singleton. -/
def config : Config := {}

/-- Per-chunk metadata dict: PyPDF sets `source`/`page`; `add_document`
additionally sets `source_file`/`added_at`.  An all-`none` record models the
empty (falsy) Python dict. -/
structure Meta where
  source : Option String := none
  page : Option Nat := none
  source_file : Option String := none
  added_at : Option Nat := none
deriving DecidableEq, Repr

/-- Python truthiness of the metadata dict: empty dict is falsy. -/
def Meta.isEmpty (m : Meta) : Bool :=
  m.source.isNone && m.page.isNone && m.source_file.isNone && m.added_at.isNone

/-- One record of a Chroma collection: (id, document text, metadata). -/
structure ChromaEntry where
  id : String
  text : String
  metadata : Meta
deriving DecidableEq, Repr

/-- The two vector-store backends held in `self.vector_store`: a Chroma handle
(contents live on disk under the fingerprint's collection) or an in-memory
FAISS store (text/metadata pairs). -/
inductive VectorStore where
  | chroma (pdf_hash : String)
  | faiss (entries : List (String × Meta))
deriving DecidableEq, Repr

/-- The pickled `metadata.pkl` record written by `save_embeddings_cache`.
`vector_store_type` is `Option` because the loader reads it with
`.get('vector_store_type', 'faiss')`. -/
structure MetaRecord where
  chunks_metadata : List Meta
  timestamp : Nat
  version : String
  vector_store_type : Option String
deriving DecidableEq, Repr

/-- On-disk state shared by all operations: existing cache directories,
`metadata.pkl` files (`some none` = file present but unpicklable), saved FAISS
indexes, Chroma persist directories and the per-fingerprint Chroma collections. -/
structure Disk where
  cacheDirs : List String := []
  metadataFiles : List (String × Option MetaRecord) := []
  faissIndexes : List (String × List (String × Meta)) := []
  chromaDirs : List String := []
  chromaColls : List (String × List ChromaEntry) := []
deriving DecidableEq, Repr

/-- The flat keys of `self.document_info` written by `process_document`. -/
structure MainInfo where
  file_name : String
  file_path : String
  file_hash : String
  pages_count : Nat
  chunks_count : Nat
  timestamp : Nat
  vector_store_type : String
deriving DecidableEq, Repr

/-- The per-added-document dict appended by `add_document`. -/
structure AddedDocInfo where
  file_name : String
  file_path : String
  pages_count : Nat
  chunks_count : Nat
  timestamp : Nat
deriving DecidableEq, Repr

/-- An element of `document_info['documents']`: either the copied original
info dict or an added-document record. -/
inductive DocRecord where
  | main (mi : MainInfo)
  | added (ai : AddedDocInfo)
deriving DecidableEq, Repr

/-- `self.document_info`: `core = none` and `documents = none` is the empty dict. -/
structure DocumentInfo where
  core : Option MainInfo := none
  documents : Option (List DocRecord) := none
deriving DecidableEq, Repr

/-- Python truthiness of `self.document_info`. -/
def DocumentInfo.nonEmpty (di : DocumentInfo) : Bool :=
  di.core.isSome || di.documents.isSome

/-- The mutable fields of a `QianwenPaperQAAPI` instance.  `qa_chain` stores
the retriever's `k` when the RAG chain is built. -/
structure APIState where
  qa_chain : Option Nat := none
  current_document : Option String := none
  document_info : DocumentInfo := {}
  vector_store : Option VectorStore := none
  embeddings : Bool := false
deriving DecidableEq, Repr

/-- One page produced by `PyPDFLoader.load()`: text plus the loader metadata
(`source` = the path given to the loader, `page` = page number). -/
structure Page where
  text : String
  source : String
  page : Nat
deriving DecidableEq, Repr

/-- External collaborators and ambient inputs.
`files`: the file system (path to bytes); `pdfPages`: what `PyPDFLoader`
returns per path (absent = the loader raises); `split`: the
`RecursiveCharacterTextSplitter`, producing (chunk text, metadata) pairs;
`svc`: outcome of the n-th embedding HTTP call in an operation (`none` = ok,
`some msg` = the call raises `msg`); `embedVec`: the vector the service returns
per text; `invoke`: the RAG chain's retrieve-and-complete call; `now`: the
wall clock; `elapsed`: measured durations; `H`: the MD5 hex digest of a byte
stream. -/
structure Env where
  files : List (String × List Nat)
  pdfPages : List (String × List Page)
  split : List Page → List (String × Meta)
  svc : Nat → Option String
  embedVec : String → List Int
  invoke : String → Except String String
  now : Nat
  elapsed : Nat
  H : List Nat → String

/-- Error raised by `get_file_hash` when the path does not exist. -/
inductive FileErr where
  | fileNotFound (msg : String)
deriving DecidableEq, Repr

/-- The byte stream fed to the MD5 object by
`for chunk in iter(lambda: f.read(8192), b""): hash_md5.update(chunk)`. -/
def streamBytes (content : List Nat) : List Nat :=
  (chunksOf 8192 content).foldl (fun acc c => acc ++ c) []

/-- `QianwenPaperQAAPI.get_file_hash`: existence check, then the MD5 hex digest
of the file bytes read in 8192-byte blocks. -/
def get_file_hash (env : Env) (file_path : String) : Except FileErr String :=
  match lookupA env.files file_path with
  | none => .error (.fileNotFound ("文件不存在: " ++ file_path))
  | some content => .ok (env.H (streamBytes content))

/-- Python `str.lower()` (ASCII case folding, enough for the `.pdf` check). -/
def pyLower (s : String) : String := String.mk (s.data.map Char.toLower)

/-- Python `str.endswith(suf)`. -/
def endsWithL (s suf : String) : Bool :=
  decide (s.data.reverse.take suf.data.length = suf.data.reverse)

/-- `QianwenPaperQAAPI.validate_pdf_file`. -/
def validate_pdf_file (env : Env) (file_path : String) : Except String Unit :=
  if file_path = "" || (lookupA env.files file_path).isNone then
    .error ("PDF文件不存在: " ++ file_path)
  else if !(endsWithL (pyLower file_path) ".pdf") then
    .error "文件必须是PDF格式"
  else .ok ()

/-- `CustomQwenEmbeddings.embed_documents`: issues exactly one external call
carrying the whole `texts` list (`input=texts`); returns one vector per text,
in order.  Besides the result it returns the advanced call counter and the
sizes of the external calls it issued. -/
def embed_documents (env : Env) (texts : List String) (n : Nat) :
    Except String (List (List Int)) × Nat × List Nat :=
  match env.svc n with
  | none => (.ok (texts.map env.embedVec), n + 1, [texts.length])
  | some msg => (.error msg, n + 1, [texts.length])

/-- Structural split of a string on a separator character (Python
`str.split(sep)` for a one-character separator, empty segments kept). -/
def splitChar (sep : Char) : List Char → List (List Char)
  | [] => [[]]
  | c :: rest =>
    match splitChar sep rest with
    | [] => [[]]
    | cur :: parts => if c = sep then [] :: cur :: parts else (c :: cur) :: parts

/-- `os.path.basename` on POSIX. -/
def basename (s : String) : String :=
  ((splitChar (Char.ofNat 47) s.data).map String.mk).getLastD s

/-- Decidable equality for `Except` results, used to evaluate concrete runs. -/
instance {ε α : Type} [DecidableEq ε] [DecidableEq α] : DecidableEq (Except ε α) := by
  intro a b
  cases a <;> cases b
  case error.error x y =>
    exact if h : x = y then isTrue (by rw [h]) else isFalse (by intro hc; cases hc; exact h rfl)
  case ok.ok x y =>
    exact if h : x = y then isTrue (by rw [h]) else isFalse (by intro hc; cases hc; exact h rfl)
  case error.ok x y => exact isFalse (by intro hc; cases hc)
  case ok.error x y => exact isFalse (by intro hc; cases hc)

/-- Output of the per-batch `add_texts` loop on the Chroma path. -/
structure ChromaOut where
  result : Except String Unit
  disk : Disk
  n : Nat
  callSizes : List Nat
deriving DecidableEq, Repr

/-- The Chroma `add_texts` batch loop shared by `_create_chroma_vector_store`
(id prefix = the fingerprint) and `add_document` (id prefix = `add_<now>`).
Each batch is one `add_texts` call: one embedding call, then an upsert of the
batch (id, text, metadata) records into the persisted collection `coll_key`.
A failed embedding call raises immediately: there is no retry on this path. -/
def upsertOne (coll : List ChromaEntry) (e : ChromaEntry) : List ChromaEntry :=
  match coll with
  | [] => [e]
  | c :: rest => if c.id = e.id then e :: rest else c :: upsertOne rest e

/-- Chroma upsert of a batch of records. -/
def upsertMany (coll : List ChromaEntry) (es : List ChromaEntry) : List ChromaEntry :=
  es.foldl upsertOne coll

/-- The records one batch contributes: ids are `<prefix>_<global index>`. -/
def entriesOfBatch (idPrefix : String) (batch : List (Nat × String × Meta)) :
    List ChromaEntry :=
  batch.map (fun b => ChromaEntry.mk (idPrefix ++ "_" ++ toString b.1) b.2.1 b.2.2)

/-- See `upsertOne`.  Batches carry the global chunk index used to build ids. -/
def chroma_add_batches (env : Env) (idPrefix coll_key : String) :
    List (List (Nat × String × Meta)) → Disk → Nat → ChromaOut
  | [], d, n => ⟨.ok (), d, n, []⟩
  | batch :: rest, d, n =>
    let e := embed_documents env (batch.map (fun b => b.2.1)) n
    match e.1 with
    | .error msg => ⟨.error msg, d, e.2.1, e.2.2⟩
    | .ok _ =>
      let coll := (lookupA d.chromaColls coll_key).getD []
      let d' := { d with chromaColls := setA d.chromaColls coll_key (upsertMany coll (entriesOfBatch idPrefix batch)) }
      let out := chroma_add_batches env idPrefix coll_key rest d' e.2.1
      ⟨out.result, out.disk, out.n, e.2.2 ++ out.callSizes⟩

/-- Output of a vector-store build (`create_vector_store_with_batches`).
`result = .ok none` models the Python function returning `None` (possible on
the FAISS path when `max_retries = 0` skips every batch). -/
structure VBuildOut where
  result : Except String (Option VectorStore)
  disk : Disk
  callSizes : List Nat
  sleeps : List Nat
deriving DecidableEq, Repr

/-- `QianwenPaperQAAPI._create_chroma_vector_store`: creates
`chroma_db/<hash>`, gets or creates the per-document collection, then adds the
chunks batch by batch (batch size `config.BATCH_SIZE`), persisting as it goes. -/
def _create_chroma_vector_store (env : Env) (cfg : Config) (d : Disk)
    (texts_metas : List (String × Meta)) (pdf_hash : String) : VBuildOut :=
  let d1 : Disk :=
    { d with chromaDirs := insertS d.chromaDirs pdf_hash,
             chromaColls :=
               if (lookupA d.chromaColls pdf_hash).isSome then d.chromaColls
               else setA d.chromaColls pdf_hash [] }
  let batches := chunksOf cfg.BATCH_SIZE texts_metas.enum
  let out := chroma_add_batches env pdf_hash pdf_hash batches d1 0
  { result :=
      match out.result with
      | .ok _ => .ok (some (.chroma pdf_hash))
      | .error e => .error e,
    disk := out.disk, callSizes := out.callSizes, sleeps := [] }

/-- Output of the retry loop around one FAISS batch.  `result = .ok true`
means the batch was embedded, `.ok false` that the attempt loop was empty
(`max_retries = 0`) and the batch was silently skipped. -/
structure TryOut where
  result : Except String Bool
  n : Nat
  callSizes : List Nat
  sleeps : List Nat
deriving DecidableEq, Repr

/-- The `for attempt in range(max_retries)` loop of
`_create_faiss_vector_store`: each attempt is one `FAISS.from_texts` call
(one embedding call); on failure it sleeps `2 ** attempt` seconds unless the
attempt was the last, in which case the last error is re-raised. -/
def faiss_try_batch (env : Env) (texts : List String) :
    List Nat → Nat → TryOut
  | [], n => ⟨.ok false, n, [], []⟩
  | [_], n =>
    let e := embed_documents env texts n
    match e.1 with
    | .ok _ => ⟨.ok true, e.2.1, e.2.2, []⟩
    | .error msg => ⟨.error msg, e.2.1, e.2.2, []⟩
  | a :: b :: rest, n =>
    let e := embed_documents env texts n
    match e.1 with
    | .ok _ => ⟨.ok true, e.2.1, e.2.2, []⟩
    | .error _ =>
      let out := faiss_try_batch env texts (b :: rest) e.2.1
      ⟨out.result, out.n, e.2.2 ++ out.callSizes, 2 ^ a :: out.sleeps⟩

/-- Accumulated output of the FAISS batch loop. -/
structure FaissOut where
  result : Except String Unit
  store : Option (List (String × Meta))
  n : Nat
  callSizes : List Nat
  sleeps : List Nat
deriving DecidableEq, Repr

/-- The outer batch loop of `_create_faiss_vector_store`: `from_texts` on the
first successful batch, `merge_from` (append) afterwards. -/
def faiss_batch_loop (env : Env) (maxR : Nat) :
    List (List (String × Meta)) → Option (List (String × Meta)) → Nat → FaissOut
  | [], store, n => ⟨.ok (), store, n, [], []⟩
  | batch :: rest, store, n =>
    let t := faiss_try_batch env (batch.map Prod.fst) (List.range maxR) n
    match t.result with
    | .error msg => ⟨.error msg, store, t.n, t.callSizes, t.sleeps⟩
    | .ok embedded =>
      let store' := if embedded then some ((store.getD []) ++ batch) else store
      let out := faiss_batch_loop env maxR rest store' t.n
      ⟨out.result, out.store, out.n, t.callSizes ++ out.callSizes, t.sleeps ++ out.sleeps⟩

/-- `QianwenPaperQAAPI._create_faiss_vector_store`. -/
def _create_faiss_vector_store (env : Env) (cfg : Config)
    (texts_metas : List (String × Meta)) : FaissOut :=
  faiss_batch_loop env cfg.MAX_RETRIES (chunksOf cfg.BATCH_SIZE texts_metas) none 0

/-- `QianwenPaperQAAPI.create_vector_store_with_batches`: dispatch on
`config.VECTOR_STORE_TYPE`. -/
def create_vector_store_with_batches (env : Env) (cfg : Config) (d : Disk)
    (texts_metas : List (String × Meta)) (pdf_hash : String) : VBuildOut :=
  if cfg.VECTOR_STORE_TYPE = "chroma" then
    _create_chroma_vector_store env cfg d texts_metas pdf_hash
  else
    let out := _create_faiss_vector_store env cfg texts_metas
    { result :=
        match out.result with
        | .error e => .error e
        | .ok _ =>
          match out.store with
          | some es => .ok (some (.faiss es))
          | none => .ok none,
      disk := d, callSizes := out.callSizes, sleeps := out.sleeps }

/-- `QianwenPaperQAAPI.save_embeddings_cache`: creates the cache directory,
saves the FAISS index there (Chroma is already persisted), then writes
`metadata.pkl`. -/
def save_embeddings_cache (d : Disk) (cfg : Config) (pdf_hash : String)
    (vs : Option VectorStore) (chunks_metadata : List Meta) (now : Nat) : Disk :=
  let d1 := { d with cacheDirs := insertS d.cacheDirs pdf_hash }
  let d2 :=
    (match vs with
     | some (.faiss es) => { d1 with faissIndexes := setA d1.faissIndexes pdf_hash es }
     | _ => d1)
  let record : MetaRecord := ⟨chunks_metadata, now, "1.0", some cfg.VECTOR_STORE_TYPE⟩
  { d2 with metadataFiles := setA d2.metadataFiles pdf_hash (some record) }

/-- `QianwenPaperQAAPI.load_embeddings_cache`: every failure mode (missing
directory, missing or unreadable `metadata.pkl`, missing FAISS index, missing
Chroma directory, empty or unreadable collection, unknown store type) is
swallowed and reported as a miss (`none`). -/
def load_embeddings_cache (d : Disk) (pdf_hash : String) :
    Option (VectorStore × List Meta) :=
  if pdf_hash ∈ d.cacheDirs then
    match lookupA d.metadataFiles pdf_hash with
    | none => none
    | some none => none
    | some (some md) =>
      if md.vector_store_type.getD "faiss" = "faiss" then
        match lookupA d.faissIndexes pdf_hash with
        | none => none
        | some es => some (.faiss es, md.chunks_metadata)
      else if md.vector_store_type.getD "faiss" = "chroma" then
        if pdf_hash ∈ d.chromaDirs then
          if ((lookupA d.chromaColls pdf_hash).getD []).length = 0 then none
          else some (.chroma pdf_hash, md.chunks_metadata)
        else none
      else none
  else none

/-- Result dict of `process_document`. -/
structure ProcessResult where
  success : Bool
  message : String
  document_info : Option DocumentInfo
deriving DecidableEq, Repr

/-- Observable side effects of one `process_document` call: sizes of the
external embedding calls issued, backoff sleeps, and whether the
chunking step ran. -/
structure Trace where
  embedCallSizes : List Nat
  sleeps : List Nat
  chunked : Bool
deriving DecidableEq, Repr

/-- Full outcome of `process_document`. -/
structure ProcOut where
  result : ProcessResult
  state : APIState
  disk : Disk
  trace : Trace
deriving DecidableEq, Repr

/-- The shared tail of `process_document`: store the vector store, build the
retriever and RAG chain, record `current_document` and `document_info`. -/
def finish_process (cfg : Config) (s1 : APIState) (d : Disk) (tr : Trace)
    (pdf_path pdf_hash : String) (pages_count chunks_count : Nat)
    (vs : VectorStore) (now : Nat) : ProcOut :=
  let mi : MainInfo :=
    ⟨basename pdf_path, pdf_path, pdf_hash, pages_count, chunks_count, now,
     cfg.VECTOR_STORE_TYPE⟩
  ⟨⟨true, "文档处理成功", some ⟨some mi, none⟩⟩,
   { s1 with vector_store := some vs, qa_chain := some cfg.RETRIEVER_K,
             current_document := some pdf_path,
             document_info := ⟨some mi, none⟩ },
   d, tr⟩

/-- The tail of `process_document` from the point where the vector-store
build has returned: a raised build error propagates (cache entry not yet
written); a `None` store still writes the cache entry and then fails at
`as_retriever`; a real store is cached and the RAG chain is built. -/
def processBuild (env : Env) (cfg : Config) (s : APIState)
    (pdf_path pdf_hash : String) (pages_count chunks_count : Nat)
    (metas : List Meta) (b : VBuildOut) : ProcOut :=
  match b.result with
  | .error e =>
    ⟨⟨false, "文档处理失败: " ++ e, none⟩, { s with embeddings := true }, b.disk,
     ⟨b.callSizes, b.sleeps, true⟩⟩
  | .ok none =>
    ⟨⟨false, "文档处理失败: NoneType对象没有as_retriever属性", none⟩,
     { s with embeddings := true },
     save_embeddings_cache b.disk cfg pdf_hash none metas env.now,
     ⟨b.callSizes, b.sleeps, true⟩⟩
  | .ok (some vs) =>
    finish_process cfg { s with embeddings := true }
      (save_embeddings_cache b.disk cfg pdf_hash (some vs) metas env.now)
      ⟨b.callSizes, b.sleeps, true⟩ pdf_path pdf_hash pages_count chunks_count
      vs env.now

/-- `QianwenPaperQAAPI.process_document`.  On the cache-hit path
`pages_count` keeps its initialiser `0` and `chunks_count` is the length of
the cached metadata list; on the miss path the document is loaded, chunked,
embedded batch-wise and the cache entry is written only after a successful
build.  Every exception is converted to a failure result; `self.embeddings`
has already been assigned when one is raised after the hash step. -/
def process_document (env : Env) (cfg : Config) (s : APIState) (d : Disk)
    (pdf_path : String) : ProcOut :=
  match validate_pdf_file env pdf_path with
  | .error e => ⟨⟨false, "文档处理失败: " ++ e, none⟩, s, d, ⟨[], [], false⟩⟩
  | .ok _ =>
  match get_file_hash env pdf_path with
  | .error _ =>
    ⟨⟨false, "文档处理失败: 文件不存在", none⟩, s, d, ⟨[], [], false⟩⟩
  | .ok pdf_hash =>
  match load_embeddings_cache d pdf_hash with
  | some (vs, cached_metadata) =>
    finish_process cfg { s with embeddings := true } d ⟨[], [], false⟩ pdf_path
      pdf_hash 0 cached_metadata.length vs env.now
  | none =>
  match lookupA env.pdfPages pdf_path with
  | none =>
    ⟨⟨false, "文档处理失败: PDF解析错误", none⟩, { s with embeddings := true }, d,
     ⟨[], [], false⟩⟩
  | some pages =>
  if pages.isEmpty then
    ⟨⟨false, "文档处理失败: PDF文档为空或无法读取", none⟩,
     { s with embeddings := true }, d, ⟨[], [], false⟩⟩
  else if (env.split pages).isEmpty then
    ⟨⟨false, "文档处理失败: 文档分块失败", none⟩, { s with embeddings := true }, d,
     ⟨[], [], true⟩⟩
  else
    processBuild env cfg s pdf_path pdf_hash pages.length (env.split pages).length
      ((env.split pages).map Prod.snd)
      (create_vector_store_with_batches env cfg d (env.split pages) pdf_hash)

/-- Result dict of `ask_question`. -/
structure AskResult where
  success : Bool
  message : String
  answer : Option String
  processing_time : Nat
  question : Option String
deriving DecidableEq, Repr

/-- Python `str.strip()`: drop leading and trailing whitespace. -/
def pyStrip (s : String) : String :=
  String.mk (((s.data.dropWhile Char.isWhitespace).reverse.dropWhile
    Char.isWhitespace).reverse)

/-- `QianwenPaperQAAPI.ask_question`: no chain, then empty question, then the
RAG call.  The instance state is never assigned. -/
def ask_question (env : Env) (s : APIState) (question : String) :
    AskResult × APIState :=
  match s.qa_chain with
  | none => (⟨false, "请先上传并处理PDF文档", none, 0, none⟩, s)
  | some _ =>
    if pyStrip question = "" then (⟨false, "问题不能为空", none, 0, none⟩, s)
    else
      match env.invoke (pyStrip question) with
      | .ok resp =>
        (⟨true, "回答生成成功", some resp, env.elapsed, some (pyStrip question)⟩, s)
      | .error e => (⟨false, "问题回答失败: " ++ e, none, 0, none⟩, s)

/-- Result of `get_document_summary`: its no-document dict has a `summary`
key instead of the `ask_question` shape. -/
inductive SummaryResult where
  | noDocument (message : String)
  | answered (r : AskResult)
deriving DecidableEq, Repr

/-- `QianwenPaperQAAPI.get_document_summary`. -/
def get_document_summary (env : Env) (s : APIState) : SummaryResult × APIState :=
  match s.qa_chain with
  | none => (.noDocument "请先上传并处理PDF文档", s)
  | some _ =>
    let out := ask_question env s "请简要总结这篇文档的主要内容、核心观点和关键信息。"
    (.answered out.1, out.2)

/-- Result dict of `add_document`. -/
structure AddResult where
  success : Bool
  message : String
  document_info : Option AddedDocInfo
deriving DecidableEq, Repr

/-- Full outcome of an `add_document` call. -/
structure AddOut where
  result : AddResult
  state : APIState
  disk : Disk
  callSizes : List Nat
deriving DecidableEq, Repr

/-- `QianwenPaperQAAPI.add_document`: gated on `VECTOR_STORE_TYPE == "chroma"`
and on the live store being a Chroma instance; then loads, splits, stamps
`source_file`/`added_at` onto the chunk metadata and appends batch-wise to the
existing collection with ids `add_<now>_<k>`. -/
def add_document (env : Env) (cfg : Config) (s : APIState) (d : Disk)
    (pdf_path : String) : AddOut :=
  if cfg.VECTOR_STORE_TYPE ≠ "chroma" then
    ⟨⟨false, "动态更新仅支持ChromaDB，请在配置中设置VECTOR_STORE_TYPE", none⟩, s, d, []⟩
  else
    match s.vector_store with
    | some (.chroma coll_key) =>
      (match validate_pdf_file env pdf_path with
       | .error e => ⟨⟨false, "添加文档失败: " ++ e, none⟩, s, d, []⟩
       | .ok _ =>
       match lookupA env.pdfPages pdf_path with
       | none => ⟨⟨false, "添加文档失败: PDF解析错误", none⟩, s, d, []⟩
       | some pages =>
       if pages.isEmpty then
         ⟨⟨false, "添加文档失败: PDF文档为空或无法读取", none⟩, s, d, []⟩
       else
       let chunks := env.split pages
       if chunks.isEmpty then
         ⟨⟨false, "添加文档失败: 文档分块失败", none⟩, s, d, []⟩
       else
       let texts_metas := chunks.map (fun c =>
         (c.1, { c.2 with source_file := some (basename pdf_path),
                          added_at := some env.now }))
       let out := chroma_add_batches env ("add_" ++ toString env.now) coll_key
         (chunksOf cfg.BATCH_SIZE texts_metas.enum) d 0
       match out.result with
       | .error e =>
         ⟨⟨false, "添加文档失败: " ++ e, none⟩, s, out.disk, out.callSizes⟩
       | .ok _ =>
         let ai : AddedDocInfo :=
           ⟨basename pdf_path, pdf_path, pages.length, chunks.length, env.now⟩
         let di := s.document_info
         let docs :=
           match di.documents with
           | some l => l
           | none =>
             match di.core with
             | some mi => [DocRecord.main mi]
             | none => []
         let s' := { s with document_info :=
           { di with documents := some (docs ++ [DocRecord.added ai]) } }
         ⟨⟨true, "文档添加成功", some ai⟩, s', out.disk, out.callSizes⟩)
    | _ => ⟨⟨false, "请先初始化一个文档再添加新文档", none⟩, s, d, []⟩

/-- Result dict of `delete_document_by_source`. -/
structure DeleteResult where
  success : Bool
  message : String
  deleted_count : Option Nat
deriving DecidableEq, Repr

/-- The match performed by `delete_document_by_source` on one record:
`metadata and metadata.get('source_file') == source_file`. -/
def matchesSource (e : ChromaEntry) (source_file : String) : Bool :=
  !e.metadata.isEmpty && decide (e.metadata.source_file = some source_file)

/-- `QianwenPaperQAAPI.delete_document_by_source`: Chroma only; collects the
ids of records whose `source_file` metadata equals the argument and deletes
them; not-found when no record matches. -/
def delete_document_by_source (cfg : Config) (s : APIState) (d : Disk)
    (source_file : String) : DeleteResult × APIState × Disk :=
  if cfg.VECTOR_STORE_TYPE ≠ "chroma" then
    (⟨false, "文档删除仅支持ChromaDB", none⟩, s, d)
  else
    match s.vector_store with
    | some (.chroma coll_key) =>
      let coll := (lookupA d.chromaColls coll_key).getD []
      let ids_to_delete :=
        (coll.filter (fun e => matchesSource e source_file)).map ChromaEntry.id
      if ids_to_delete.isEmpty then
        (⟨false, "未找到源文件为 " ++ source_file ++ " 的文档", none⟩, s, d)
      else
        let coll' := coll.filter (fun e => !(ids_to_delete.contains e.id))
        (⟨true, "成功删除 " ++ toString ids_to_delete.length ++ " 个文档块",
          some ids_to_delete.length⟩, s,
         { d with chromaColls := setA d.chromaColls coll_key coll' })
    | _ => (⟨false, "未找到向量存储", none⟩, s, d)

/-- Python `a or b` on two optional strings (`None` and `""` are falsy). -/
def pyStrOr : Option String → Option String → Option String
  | some v, b => if v = "" then b else some v
  | none, b => b

/-- The filename extraction of `list_documents`: split on `/` if present, else
on a backslash. -/
def stripPath (s : String) : String :=
  if s.data.contains (Char.ofNat 47) then
    ((splitChar (Char.ofNat 47) s.data).map String.mk).getLastD s
  else if s.data.contains (Char.ofNat 92) then
    ((splitChar (Char.ofNat 92) s.data).map String.mk).getLastD s
  else s

/-- The name under which `list_documents` files one record:
`metadata.get('source_file') or metadata.get('source')`, skipped when falsy,
then path-stripped. -/
def listKey (m : Meta) : Option String :=
  if m.isEmpty then none
  else
    match pyStrOr m.source_file m.source with
    | none => none
    | some v => if v = "" then none else some (stripPath v)

/-- Insert-or-increment into the `source_files` dict (insertion order kept;
`added_at` comes from the first record filed under the name). -/
def bumpSources (acc : List (String × Nat × Option Nat)) (name : String)
    (added : Option Nat) : List (String × Nat × Option Nat) :=
  match acc with
  | [] => [(name, 1, added)]
  | (n, c, a) :: rest =>
    if n = name then (n, c + 1, a) :: rest
    else (n, c, a) :: bumpSources rest name added

/-- The aggregation loop of `list_documents` over the collection records. -/
def collect_sources (coll : List ChromaEntry) : List (String × Nat × Option Nat) :=
  coll.foldl (fun acc e =>
    match listKey e.metadata with
    | some name => bumpSources acc name e.metadata.added_at
    | none => acc) []

/-- An element of the `documents` list returned by `list_documents`. -/
inductive DocListEntry where
  | src (source_file : String) (chunks_count : Nat) (added_at : Option Nat)
  | info (di : DocumentInfo)
deriving DecidableEq, Repr

/-- Result dict of `list_documents`. -/
structure ListResult where
  success : Bool
  message : String
  documents : List DocListEntry
deriving DecidableEq, Repr

/-- `QianwenPaperQAAPI.list_documents`. -/
def list_documents (s : APIState) (d : Disk) : ListResult :=
  match s.vector_store with
  | none => ⟨false, "未找到向量存储", []⟩
  | some (.chroma coll_key) =>
    let coll := (lookupA d.chromaColls coll_key).getD []
    let docs := (collect_sources coll).map (fun x => DocListEntry.src x.1 x.2.1 x.2.2)
    ⟨true, "共找到 " ++ toString docs.length ++ " 个文档", docs⟩
  | some (.faiss _) =>
    let docs :=
      if s.document_info.nonEmpty then [DocListEntry.info s.document_info] else []
    ⟨true, "共找到 " ++ toString docs.length ++ " 个文档", docs⟩

/-- The source names reported by a `list_documents` result. -/
def listedNames (r : ListResult) : List String :=
  r.documents.filterMap (fun e =>
    match e with
    | .src n _ _ => some n
    | .info _ => none)

/-- Chunk count carried by a `process_document` result. -/
def resultChunks (r : ProcessResult) : Option Nat :=
  r.document_info.bind (fun di => di.core.map (fun mi => mi.chunks_count))

/-- Page count carried by a `process_document` result. -/
def resultPages (r : ProcessResult) : Option Nat :=
  r.document_info.bind (fun di => di.core.map (fun mi => mi.pages_count))

/-- Invariant claimed after a failed build: nothing cache-relevant was
written, the manager's document state is untouched, and a later cache lookup
for the fingerprint still misses. -/
def BuildFailureInvariant (s0 : APIState) (d0 : Disk) (h : String)
    (out : ProcOut) : Prop :=
  out.disk.cacheDirs = d0.cacheDirs ∧
  out.disk.metadataFiles = d0.metadataFiles ∧
  out.disk.faissIndexes = d0.faissIndexes ∧
  out.state.qa_chain = s0.qa_chain ∧
  out.state.vector_store = s0.vector_store ∧
  out.state.current_document = s0.current_document ∧
  out.state.document_info = s0.document_info ∧
  load_embeddings_cache out.disk h = none

/-- A cache entry for `h` is dangling on disk `d`: directory present but data
missing, metadata missing or unreadable, persisted collection missing or
empty, or an unknown store type. -/
def DanglingCache (d : Disk) (h : String) : Prop :=
  h ∉ d.cacheDirs ∨
  lookupA d.metadataFiles h = none ∨
  lookupA d.metadataFiles h = some none ∨
  ∃ md, lookupA d.metadataFiles h = some (some md) ∧
    ((md.vector_store_type.getD "faiss" = "faiss" ∧ lookupA d.faissIndexes h = none) ∨
     (md.vector_store_type.getD "faiss" = "chroma" ∧
       (h ∉ d.chromaDirs ∨ ((lookupA d.chromaColls h).getD []).length = 0)) ∨
     (md.vector_store_type.getD "faiss" ≠ "faiss" ∧
      md.vector_store_type.getD "faiss" ≠ "chroma"))

/-- A model of the external `RecursiveCharacterTextSplitter` on documents
whose pages fit inside one window: one chunk per page, metadata inherited
from the loader. -/
def splitWhole (pages : List Page) : List (String × Meta) :=
  pages.map (fun pg => (pg.text, { source := some pg.source, page := some pg.page }))

/-- A concrete environment for witnesses: two paths with identical bytes, a
healthy embedding service, and a length-keyed stand-in for the MD5 digest. -/
def env0 : Env :=
  { files := [("a.pdf", [1, 2]), ("b.pdf", [1, 2])],
    pdfPages := [],
    split := splitWhole,
    svc := fun _ => none,
    embedVec := fun _ => [1],
    invoke := fun q => .ok ("答案: " ++ q),
    now := 100, elapsed := 2,
    H := fun l => "md5-" ++ toString l.length }

/-- Environment with one well-formed single-page PDF at `doc/a.pdf`. -/
def env1 : Env :=
  { env0 with
    files := [("doc/a.pdf", [1, 2, 3])],
    pdfPages := [("doc/a.pdf", [⟨"第一页的内容", "doc/a.pdf", 0⟩])] }

/-- First ingestion of `doc/a.pdf` from a clean state and an empty disk. -/
def run1 : ProcOut := process_document env1 config {} {} "doc/a.pdf"

/-- Second ingestion of the same bytes, continuing from the first run. -/
def run2 : ProcOut := process_document env1 config run1.state run1.disk "doc/a.pdf"

/-- Environment with a five-page PDF whose second embedding batch fails. -/
def env4 : Env :=
  { env1 with
    pdfPages :=
      [("doc/a.pdf",
        (List.range 5).map (fun i => ⟨"第" ++ toString i ++ "页", "doc/a.pdf", i⟩))],
    svc := fun n => if n = 0 then none else some "嵌入服务不可用" }

/-- Failed ingestion: batch 1 (4 chunks) embeds, batch 2 fails. -/
def run4 : ProcOut := process_document env4 config {} {} "doc/a.pdf"

/-- Deleting the initially-ingested document by its displayed name. -/
def del7 : DeleteResult × APIState × Disk :=
  delete_document_by_source config run1.state run1.disk "a.pdf"

/-- Environment whose embedding service fails every call with an indexed message. -/
def envFail : Env :=
  { env1 with svc := fun k => some ("失败" ++ toString k) }

/-- A Chroma build attempt against the always-failing service. -/
def chromaFailOut : VBuildOut :=
  _create_chroma_vector_store envFail config {}
    [("一个文本块", { source := some "doc/a.pdf", page := some 0 })] "hX"

/-- A dangling cache entry: directory present, `metadata.pkl` missing. -/
def d_dangling : Disk := { cacheDirs := ["hash-dangling"] }

/-- Metadata of the single chunk in the valid cache fixture. -/
def m6 : Meta := { source := some "x.pdf", page := some 0 }

/-- A valid Chroma-backed cache entry with one stored vector. -/
def d_valid : Disk :=
  { cacheDirs := ["h6"],
    metadataFiles := [("h6", some ⟨[m6], 50, "1.0", some "chroma"⟩)],
    chromaDirs := ["h6"],
    chromaColls := [("h6", [⟨"h6_0", "正文", m6⟩])] }

/-- A two-document Chroma collection: one record appended by `add_document`
(carrying `source_file`), one from the initial ingestion (loader metadata only). -/
def collW : List ChromaEntry :=
  [⟨"add_100_0", "乙文", { source := some "tmp/b.pdf", source_file := some "b.pdf",
                           added_at := some 100 }⟩,
   ⟨"h_0", "甲文", { source := some "dir/a.pdf", page := some 0 }⟩]

/-- State whose active store is the collection `collW` lives in. -/
def stateW : APIState := { vector_store := some (.chroma "hW") }

/-- Disk holding the collection `collW`. -/
def diskW : Disk := { chromaColls := [("hW", collW)] }

/-! ### Helper lemmas about the list and association-list operations -/

theorem lookupA_setA_self {α : Type} : ∀ (l : List (String × α)) (k : String) (v : α),
    lookupA (setA l k v) k = some v
  | [], k, v => by simp [setA, lookupA]
  | (k', v') :: rest, k, v => by
    by_cases h : k' = k
    · simp [setA, h, lookupA]
    · simp [setA, h, lookupA, lookupA_setA_self rest k v]

theorem lookupA_setA_ne {α : Type} : ∀ (l : List (String × α)) (k k0 : String) (v : α),
    k0 ≠ k → lookupA (setA l k v) k0 = lookupA l k0
  | [], k, k0, v, h => by simp [setA, lookupA, Ne.symm h]
  | (k', v') :: rest, k, k0, v, h => by
    by_cases hk : k' = k
    · simp [setA, hk, lookupA, Ne.symm h]
    · simp only [setA, hk, if_false, lookupA]
      by_cases hk0 : k' = k0
      · simp [hk0]
      · simp [hk0, lookupA_setA_ne rest k k0 v h]

theorem setA_setA {α : Type} : ∀ (l : List (String × α)) (k : String) (v v' : α),
    setA (setA l k v) k v' = setA l k v'
  | [], k, v, v' => by simp [setA]
  | (k1, v1) :: rest, k, v, v' => by
    by_cases h : k1 = k
    · simp [setA, h]
    · simp [setA, h, setA_setA rest k v v']

theorem setA_eq_of_lookupA {α : Type} : ∀ (l : List (String × α)) (k : String) (v : α),
    lookupA l k = some v → setA l k v = l
  | [], k, v, h => by simp [lookupA] at h
  | (k1, v1) :: rest, k, v, h => by
    by_cases hk : k1 = k
    · subst hk
      simp [lookupA] at h
      simp [setA, h]
    · simp [lookupA, hk] at h
      simp [setA, hk, setA_eq_of_lookupA rest k v h]

theorem mem_insertS (l : List String) (k x : String) :
    x ∈ insertS l k ↔ x = k ∨ x ∈ l := by
  unfold insertS
  by_cases h : k ∈ l
  · simp [h]
    intro hx
    subst hx
    exact h
  · simp [h]

theorem self_mem_insertS (l : List String) (k : String) : k ∈ insertS l k :=
  (mem_insertS l k k).mpr (Or.inl rfl)

theorem isEmpty_false_of_ne_nil {α : Type} {l : List α} (h : l ≠ []) :
    l.isEmpty = false := by
  cases l with
  | nil => exact absurd rfl h
  | cons a t => rfl

theorem foldl_append_eq {α : Type} : ∀ (l : List (List α)) (acc : List α),
    l.foldl (fun a c => a ++ c) acc = acc ++ l.flatten
  | [], acc => by simp
  | c :: rest, acc => by
    simp only [List.foldl_cons, List.flatten, foldl_append_eq rest (acc ++ c)]
    simp [List.append_assoc]

theorem chunksOfFuel_succ {α : Type} (bs fuel : Nat) (xs : List α) :
    chunksOfFuel bs (fuel + 1) xs =
      if bs = 0 then []
      else if xs.isEmpty then []
      else xs.take bs :: chunksOfFuel bs fuel (xs.drop bs) := rfl

theorem chunksOfFuel_flatten {α : Type} (bs : Nat) (hbs : 0 < bs) :
    ∀ (fuel : Nat) (xs : List α), xs.length ≤ fuel →
      (chunksOfFuel bs fuel xs).flatten = xs
  | 0, xs, h => by
    have hx : xs = [] := List.eq_nil_of_length_eq_zero (Nat.le_zero.mp h)
    simp [chunksOfFuel, hx]
  | fuel + 1, xs, h => by
    have hbs' : ¬bs = 0 := Nat.pos_iff_ne_zero.mp hbs
    rw [chunksOfFuel_succ]
    by_cases hx : xs.isEmpty
    · have hx' : xs = [] := by
        cases xs with
        | nil => rfl
        | cons a t => simp at hx
      simp [hx']
    · simp only [hbs', hx, if_false, List.flatten]
      have hlen : (xs.drop bs).length ≤ fuel := by
        rw [List.length_drop]
        omega
      rw [chunksOfFuel_flatten bs hbs fuel (xs.drop bs) hlen, List.take_append_drop]

theorem chunksOf_flatten {α : Type} (bs : Nat) (hbs : 0 < bs) (xs : List α) :
    (chunksOf bs xs).flatten = xs :=
  chunksOfFuel_flatten bs hbs xs.length xs le_rfl

theorem streamBytes_eq (c : List Nat) : streamBytes c = c := by
  unfold streamBytes
  rw [foldl_append_eq, List.nil_append, chunksOf_flatten 8192 (by norm_num)]

theorem chunksOfFuel_length_le {α : Type} (bs : Nat) :
    ∀ (fuel : Nat) (xs : List α) (l : List α),
      l ∈ chunksOfFuel bs fuel xs → l.length ≤ bs
  | 0, xs, l, h => by simp [chunksOfFuel] at h
  | fuel + 1, xs, l, h => by
    rw [chunksOfFuel_succ] at h
    by_cases h0 : bs = 0
    · simp [h0] at h
    · by_cases hx : xs.isEmpty
      · simp [h0, hx] at h
      · simp only [h0, hx, if_false] at h
        rcases List.mem_cons.mp h with he | hm
        · subst he
          exact List.length_take_le bs xs
        · exact chunksOfFuel_length_le bs fuel (xs.drop bs) l hm

theorem chunksOf_length_le {α : Type} (bs : Nat) (xs : List α) (l : List α)
    (h : l ∈ chunksOf bs xs) : l.length ≤ bs :=
  chunksOfFuel_length_le bs xs.length xs l h

theorem chunksOf_cons {α : Type} (bs : Nat) (hbs : 0 < bs) (xs : List α)
    (hx : xs ≠ []) :
    ∃ rest, chunksOf bs xs = xs.take bs :: rest ∧ xs.take bs ≠ [] := by
  have hbs' : ¬bs = 0 := Nat.pos_iff_ne_zero.mp hbs
  have hlen : ∃ fuel, xs.length = fuel + 1 := by
    cases xs with
    | nil => exact absurd rfl hx
    | cons a t => exact ⟨t.length, rfl⟩
  obtain ⟨fuel, hfuel⟩ := hlen
  refine ⟨chunksOfFuel bs fuel (xs.drop bs), ?_, ?_⟩
  · unfold chunksOf
    rw [hfuel, chunksOfFuel_succ]
    simp [hbs', isEmpty_false_of_ne_nil hx]
  · intro htake
    rcases List.take_eq_nil_iff.mp htake with h | h
    · exact hbs' h
    · exact hx h

theorem upsertOne_ne_nil : ∀ (coll : List ChromaEntry) (e : ChromaEntry),
    upsertOne coll e ≠ []
  | [], e => by simp [upsertOne]
  | c :: rest, e => by
    unfold upsertOne
    by_cases h : c.id = e.id <;> simp [h]

theorem length_le_upsertOne : ∀ (coll : List ChromaEntry) (e : ChromaEntry),
    coll.length ≤ (upsertOne coll e).length
  | [], e => by simp [upsertOne]
  | c :: rest, e => by
    unfold upsertOne
    by_cases h : c.id = e.id
    · simp [h]
    · simpa [h] using length_le_upsertOne rest e

theorem length_le_upsertMany : ∀ (es : List ChromaEntry) (coll : List ChromaEntry),
    coll.length ≤ (upsertMany coll es).length
  | [], coll => by simp [upsertMany]
  | e :: rest, coll => by
    calc coll.length ≤ (upsertOne coll e).length := length_le_upsertOne coll e
      _ ≤ (upsertMany (upsertOne coll e) rest).length := length_le_upsertMany rest _
      _ = (upsertMany coll (e :: rest)).length := by simp [upsertMany]

theorem upsertMany_ne_nil (coll : List ChromaEntry) (es : List ChromaEntry)
    (h : es ≠ []) : upsertMany coll es ≠ [] := by
  cases es with
  | nil => exact absurd rfl h
  | cons e rest =>
    have h1 : 0 < (upsertOne coll e).length :=
      List.length_pos.mpr (upsertOne_ne_nil coll e)
    have h2 : (upsertOne coll e).length ≤ (upsertMany coll (e :: rest)).length := by
      simpa [upsertMany] using length_le_upsertMany rest (upsertOne coll e)
    exact List.ne_nil_of_length_pos (Nat.lt_of_lt_of_le h1 h2)

/-! ### Call-size lemmas for the two build paths -/

theorem chroma_add_batches_sizes (env : Env) (pre key : String) (B : Nat) :
    ∀ (batches : List (List (Nat × String × Meta))) (d : Disk) (n : Nat),
      (∀ b ∈ batches, b.length ≤ B) →
      ∀ x ∈ (chroma_add_batches env pre key batches d n).callSizes, x ≤ B
  | [], d, n, h => by simp [chroma_add_batches]
  | batch :: rest, d, n, h => by
    have hb : batch.length ≤ B := h batch (List.mem_cons_self _ _)
    have hr : ∀ b ∈ rest, b.length ≤ B := fun b hbm => h b (List.mem_cons_of_mem _ hbm)
    unfold chroma_add_batches
    unfold embed_documents
    cases hsvc : env.svc n with
    | none =>
      intro x hx
      simp only [List.mem_append, List.length_map, List.mem_singleton] at hx
      rcases hx with hx | hx
      · subst hx
        exact hb
      · exact chroma_add_batches_sizes env pre key B rest _ _ hr x hx
    | some msg =>
      intro x hx
      simp only [List.length_map, List.mem_singleton] at hx
      subst hx
      exact hb

theorem faiss_try_batch_sizes (env : Env) (texts : List String) (B : Nat)
    (h : texts.length ≤ B) :
    ∀ (l : List Nat) (n : Nat),
      ∀ x ∈ (faiss_try_batch env texts l n).callSizes, x ≤ B
  | [], n => by simp [faiss_try_batch]
  | [a], n => by
    unfold faiss_try_batch
    unfold embed_documents
    cases env.svc n <;>
      · intro x hx
        simp only [List.mem_singleton] at hx
        subst hx
        exact h
  | a :: b :: rest, n => by
    unfold faiss_try_batch
    unfold embed_documents
    cases env.svc n with
    | none =>
      intro x hx
      simp only [List.mem_singleton] at hx
      subst hx
      exact h
    | some msg =>
      intro x hx
      simp only [List.mem_append, List.mem_singleton] at hx
      rcases hx with hx | hx
      · subst hx
        exact h
      · exact faiss_try_batch_sizes env texts B h (b :: rest) (n + 1) x hx

theorem faiss_batch_loop_sizes (env : Env) (maxR B : Nat) :
    ∀ (batches : List (List (String × Meta))) (store : Option (List (String × Meta)))
      (n : Nat), (∀ b ∈ batches, b.length ≤ B) →
      ∀ x ∈ (faiss_batch_loop env maxR batches store n).callSizes, x ≤ B
  | [], store, n, h => by simp [faiss_batch_loop]
  | batch :: rest, store, n, h => by
    have hb : (batch.map Prod.fst).length ≤ B := by
      rw [List.length_map]
      exact h batch (List.mem_cons_self _ _)
    have hr : ∀ b ∈ rest, b.length ≤ B := fun b hbm => h b (List.mem_cons_of_mem _ hbm)
    have ht := faiss_try_batch_sizes env (batch.map Prod.fst) B hb (List.range maxR) n
    unfold faiss_batch_loop
    cases hres : (faiss_try_batch env (batch.map Prod.fst) (List.range maxR) n).result with
    | error msg =>
      intro x hx
      simp only [hres] at hx
      exact ht x hx
    | ok embedded =>
      intro x hx
      simp only [hres, List.mem_append] at hx
      rcases hx with hx | hx
      · exact ht x hx
      · exact faiss_batch_loop_sizes env maxR B rest _ _ hr x hx

/-! ### Claims -/

/-- C9: two files with identical byte content receive the same hex digest
regardless of their paths (the digest, computed by streaming the bytes in
fixed-size reads, depends only on the content), and fingerprinting a missing
path fails with the file-not-found error. -/
theorem c9_fingerprint_content_determined (env : Env) (p1 p2 q : String)
    (c : List Nat) (h1 : lookupA env.files p1 = some c)
    (h2 : lookupA env.files p2 = some c)
    (hq : lookupA env.files q = none) :
    get_file_hash env p1 = .ok (env.H c) ∧
    get_file_hash env p2 = get_file_hash env p1 ∧
    get_file_hash env q = .error (.fileNotFound ("文件不存在: " ++ q)) := by
  unfold get_file_hash
  rw [h1, h2, hq]
  simp [streamBytes_eq]

/-- Witness for C9: the same two bytes under the names `a.pdf` and `b.pdf`
yield one digest; a missing path errors. -/
theorem c9_witness :
    get_file_hash env0 "a.pdf" = .ok (env0.H [1, 2]) ∧
    get_file_hash env0 "b.pdf" = get_file_hash env0 "a.pdf" ∧
    get_file_hash env0 "no.pdf" = .error (.fileNotFound ("文件不存在: " ++ "no.pdf")) :=
  c9_fingerprint_content_determined env0 "a.pdf" "b.pdf" "no.pdf" [1, 2]
    (by decide) (by decide) (by decide)

/-- C5 counterexample: the Embedding Gateway (`embed_documents`) does not
batch internally — handed five texts it issues a single external call
carrying all five, exceeding the configured maximum batch size of four. -/
theorem c5_counterexample :
    (embed_documents env0 ["一", "二", "三", "四", "五"] 0).2.2 = [5] ∧
    config.BATCH_SIZE < 5 := by
  exact ⟨rfl, by decide⟩

/-- C5 (amended): the batch-size bound holds for the ingestion build paths,
which slice the chunk list before each gateway call: every external embedding
call issued by `create_vector_store_with_batches` (either backend) carries at
most `BATCH_SIZE` texts. -/
theorem c5_build_calls_bounded (env : Env) (cfg : Config) (d : Disk)
    (tm : List (String × Meta)) (key : String) :
    ((create_vector_store_with_batches env cfg d tm key).callSizes.all
      (fun x => decide (x ≤ cfg.BATCH_SIZE))) = true := by
  rw [List.all_eq_true]
  intro x hx
  rw [decide_eq_true_eq]
  revert hx
  unfold create_vector_store_with_batches
  by_cases hty : cfg.VECTOR_STORE_TYPE = "chroma"
  · simp only [hty, if_true, if_pos]
    unfold _create_chroma_vector_store
    intro hx
    refine chroma_add_batches_sizes env key key cfg.BATCH_SIZE _ _ _ ?_ x hx
    intro b hb
    exact chunksOf_length_le cfg.BATCH_SIZE tm.enum b hb
  · simp only [hty, if_false]
    intro hx
    unfold _create_faiss_vector_store at hx
    refine faiss_batch_loop_sizes env cfg.MAX_RETRIES cfg.BATCH_SIZE _ _ _ ?_ x hx
    intro b hb
    exact chunksOf_length_le cfg.BATCH_SIZE tm b hb

/-- C3 counterexample: with no document ingested, `ask_question("")` returns
the no-document failure message, not the empty-question (`InvalidInput`)
message — the no-chain check runs first, so the empty-question rejection does
not take precedence in every state. -/
theorem c3_counterexample :
    (ask_question env0 {} "").1.message = "请先上传并处理PDF文档" ∧
    (ask_question env0 {} "").1.message ≠ "问题不能为空" ∧
    (ask_question env0 {} "").1.success = false ∧
    (ask_question env0 {} "").1.answer = none := by
  refine ⟨rfl, ?_, rfl, rfl⟩
  decide

/-- C3 (amended): an empty or whitespace-only question always yields a
failure with `answer = none` and the state untouched; the empty-question
(`InvalidInput`) message is returned when a document is loaded, while in the
no-document state the no-document rejection takes precedence. -/
theorem c3_blank_question_rejected (env : Env) (s : APIState) (q : String)
    (hq : pyStrip q = "") :
    (ask_question env s q).1.success = false ∧
    (ask_question env s q).1.answer = none ∧
    (ask_question env s q).2 = s ∧
    (∀ k, s.qa_chain = some k → (ask_question env s q).1.message = "问题不能为空") ∧
    (s.qa_chain = none → (ask_question env s q).1.message = "请先上传并处理PDF文档") := by
  unfold ask_question
  cases hqa : s.qa_chain with
  | none => simp
  | some k => simp [hq]

/-- Witness for C3 (amended): a whitespace-only question against a loaded
document is rejected as empty. -/
theorem c3_witness :
    (ask_question env0 { qa_chain := some 5 } "  ").1.success = false ∧
    (ask_question env0 { qa_chain := some 5 } "  ").1.answer = none ∧
    (ask_question env0 { qa_chain := some 5 } "  ").2 = { qa_chain := some 5 } ∧
    (∀ k, ({ qa_chain := some 5 } : APIState).qa_chain = some k →
      (ask_question env0 { qa_chain := some 5 } "  ").1.message = "问题不能为空") ∧
    (({ qa_chain := some 5 } : APIState).qa_chain = none →
      (ask_question env0 { qa_chain := some 5 } "  ").1.message = "请先上传并处理PDF文档") :=
  c3_blank_question_rejected env0 { qa_chain := some 5 } "  " (by decide)

/-- C10: `ask_question` (and `get_document_summary`, which delegates to it)
never mutates the manager state: `qa_chain`, `vector_store`,
`current_document` and `document_info` are identical before and after the
call, on success and on every failure path. -/
theorem c10_ask_preserves_state (env : Env) (s : APIState) (q : String) :
    (ask_question env s q).2 = s ∧ (get_document_summary env s).2 = s := by
  have hask : ∀ r : String, (ask_question env s r).2 = s := by
    intro r
    unfold ask_question
    cases hqa : s.qa_chain with
    | none => rfl
    | some k =>
      by_cases hq : pyStrip r = ""
      · simp [hq]
      · simp only [hq, if_false]
        cases henv : env.invoke (pyStrip r) <;> simp [henv]
  refine ⟨hask q, ?_⟩
  unfold get_document_summary
  cases hqa : s.qa_chain with
  | none => rfl
  | some k => exact hask _

/-- C2: with the batch-only (FAISS) backend active, `add_document` and
`delete_document_by_source` both return a failure result and leave the
manager state and the on-disk collections untouched — the operation is never
downgraded to a rebuild.  This holds whichever store type the global config
currently selects. -/
theorem c2_batch_only_gating (env : Env) (cfg : Config) (s : APIState)
    (d : Disk) (p name : String) (es : List (String × Meta))
    (hfs : s.vector_store = some (.faiss es)) :
    ((add_document env cfg s d p).result.success = false ∧
     (add_document env cfg s d p).state = s ∧
     (add_document env cfg s d p).disk = d) ∧
    ((delete_document_by_source cfg s d name).1.success = false ∧
     (delete_document_by_source cfg s d name).2.1 = s ∧
     (delete_document_by_source cfg s d name).2.2 = d) := by
  unfold add_document delete_document_by_source
  by_cases hty : cfg.VECTOR_STORE_TYPE = "chroma" <;> simp [hty, hfs]

/-- Witness for C2: a FAISS-backed state with one stored document rejects
both mutations and is unchanged. -/
theorem c2_witness :
    ((add_document env0 config
        { vector_store := some (.faiss [("文", m6)]) } {} "b.pdf").result.success = false ∧
     (add_document env0 config
        { vector_store := some (.faiss [("文", m6)]) } {} "b.pdf").state =
          { vector_store := some (.faiss [("文", m6)]) } ∧
     (add_document env0 config
        { vector_store := some (.faiss [("文", m6)]) } {} "b.pdf").disk = {}) ∧
    ((delete_document_by_source config
        { vector_store := some (.faiss [("文", m6)]) } {} "a.pdf").1.success = false ∧
     (delete_document_by_source config
        { vector_store := some (.faiss [("文", m6)]) } {} "a.pdf").2.1 =
          { vector_store := some (.faiss [("文", m6)]) } ∧
     (delete_document_by_source config
        { vector_store := some (.faiss [("文", m6)]) } {} "a.pdf").2.2 = {}) :=
  c2_batch_only_gating env0 config { vector_store := some (.faiss [("文", m6)]) }
    {} "b.pdf" "a.pdf" [("文", m6)] rfl

/-! ### Behaviour of the Chroma build loop -/

theorem chroma_add_batches_ok (env : Env) (pre key : String)
    (hsvc : ∀ k, env.svc k = none) :
    ∀ (batches : List (List (Nat × String × Meta))) (d : Disk) (n : Nat)
      (coll : List ChromaEntry), lookupA d.chromaColls key = some coll →
      ∃ coll', chroma_add_batches env pre key batches d n =
          ⟨.ok (), { d with chromaColls := setA d.chromaColls key coll' },
           n + batches.length, batches.map List.length⟩ ∧
        coll.length ≤ coll'.length ∧
        ((∃ b ∈ batches, b ≠ []) → coll' ≠ [])
  | [], d, n, coll, hcoll => by
    refine ⟨coll, ?_, le_rfl, ?_⟩
    · rw [setA_eq_of_lookupA d.chromaColls key coll hcoll]
      simp [chroma_add_batches]
    · rintro ⟨b, hb, -⟩
      simp at hb
  | batch :: rest, d, n, coll, hcoll => by
    have he : embed_documents env (batch.map (fun b => b.2.1)) n =
        (.ok ((batch.map (fun b => b.2.1)).map env.embedVec), n + 1,
         [(batch.map (fun b => b.2.1)).length]) := by
      unfold embed_documents
      rw [hsvc n]
    obtain ⟨coll'', hrec, hlen, hne⟩ :=
      chroma_add_batches_ok env pre key hsvc rest
        { d with chromaColls := setA d.chromaColls key (upsertMany coll (entriesOfBatch pre batch)) }
        (n + 1)
        (upsertMany coll (entriesOfBatch pre batch))
        (by rw [lookupA_setA_self])
    refine ⟨coll'', ?_, ?_, ?_⟩
    · have harith : n + 1 + rest.length = n + (rest.length + 1) := by omega
      unfold chroma_add_batches
      rw [he]
      simp only [hcoll, Option.getD_some]
      rw [hrec]
      simp only [setA_setA, List.length_map, List.map_cons, List.length_cons,
        List.singleton_append, harith]
    · exact le_trans (length_le_upsertMany _ coll) hlen
    · rintro ⟨b, hb, hbne⟩
      rcases List.mem_cons.mp hb with hb | hb
      · subst hb
        have hmap : entriesOfBatch pre b ≠ [] := by
          intro hnil
          exact hbne (List.map_eq_nil_iff.mp hnil)
        have h1 : 0 < (upsertMany coll (entriesOfBatch pre b)).length :=
          List.length_pos.mpr (upsertMany_ne_nil coll _ hmap)
        exact List.ne_nil_of_length_pos (Nat.lt_of_lt_of_le h1 hlen)
      · exact hne ⟨b, hb, hbne⟩

theorem chroma_add_batches_disk_inv (env : Env) (pre key : String) :
    ∀ (batches : List (List (Nat × String × Meta))) (d : Disk) (n : Nat),
      ((chroma_add_batches env pre key batches d n).disk.cacheDirs = d.cacheDirs ∧
       (chroma_add_batches env pre key batches d n).disk.metadataFiles = d.metadataFiles ∧
       (chroma_add_batches env pre key batches d n).disk.faissIndexes = d.faissIndexes ∧
       (chroma_add_batches env pre key batches d n).disk.chromaDirs = d.chromaDirs) ∧
      ((chroma_add_batches env pre key batches d n).result = .ok () ∨
       ∃ msg, (chroma_add_batches env pre key batches d n).result = .error msg)
  | [], d, n => ⟨⟨rfl, rfl, rfl, rfl⟩, Or.inl rfl⟩
  | batch :: rest, d, n => by
    unfold chroma_add_batches
    unfold embed_documents
    cases hsvc : env.svc n with
    | some msg => exact ⟨⟨rfl, rfl, rfl, rfl⟩, Or.inr ⟨msg, rfl⟩⟩
    | none =>
      have ih := chroma_add_batches_disk_inv env pre key rest
        { d with chromaColls := setA d.chromaColls key (upsertMany ((lookupA d.chromaColls key).getD []) (entriesOfBatch pre batch)) } (n + 1)
      exact ih

/-- Full description of a successful Chroma build with a healthy service. -/
theorem chroma_build_ok (env : Env) (cfg : Config) (d : Disk)
    (tm : List (String × Meta)) (key : String)
    (hsvc : ∀ k, env.svc k = none) (htm : tm ≠ []) (hbs : 0 < cfg.BATCH_SIZE) :
    ∃ coll', _create_chroma_vector_store env cfg d tm key =
        ⟨.ok (some (.chroma key)),
         { d with chromaDirs := insertS d.chromaDirs key,
                  chromaColls := setA d.chromaColls key coll' },
         (chunksOf cfg.BATCH_SIZE tm.enum).map List.length, []⟩ ∧
      coll' ≠ [] := by
  have henum : tm.enum ≠ [] := by
    intro hnil
    apply htm
    have hlen := @List.enum_length _ tm
    rw [hnil] at hlen
    exact List.eq_nil_of_length_eq_zero hlen.symm
  obtain ⟨rest', hbat, hb0⟩ := chunksOf_cons cfg.BATCH_SIZE hbs tm.enum henum
  have hbmem : ∃ b ∈ chunksOf cfg.BATCH_SIZE tm.enum, b ≠ [] := by
    refine ⟨tm.enum.take cfg.BATCH_SIZE, ?_, hb0⟩
    rw [hbat]
    exact List.mem_cons_self _ _
  by_cases hcoll0 : (lookupA d.chromaColls key).isSome
  · obtain ⟨coll0, hc0⟩ := Option.isSome_iff_exists.mp hcoll0
    obtain ⟨coll', hloop, hlen, hne⟩ :=
      chroma_add_batches_ok env key key hsvc (chunksOf cfg.BATCH_SIZE tm.enum)
        { d with chromaDirs := insertS d.chromaDirs key }
        0 coll0 hc0
    refine ⟨coll', ?_, hne hbmem⟩
    unfold _create_chroma_vector_store
    simp only [hcoll0, if_true]
    rw [hloop]
  · obtain ⟨coll', hloop, hlen, hne⟩ :=
      chroma_add_batches_ok env key key hsvc (chunksOf cfg.BATCH_SIZE tm.enum)
        { d with chromaDirs := insertS d.chromaDirs key, chromaColls := setA d.chromaColls key [] }
        0 ([]) (by rw [lookupA_setA_self])
    refine ⟨coll', ?_, hne hbmem⟩
    unfold _create_chroma_vector_store
    simp only [hcoll0, Bool.false_eq_true, if_false]
    rw [hloop]
    simp [setA_setA]

/-- The Chroma build never touches the cache directory, `metadata.pkl` files
or FAISS indexes, never sleeps, and either succeeds with the collection
handle or raises. -/
theorem chroma_build_disk_inv (env : Env) (cfg : Config) (d : Disk)
    (tm : List (String × Meta)) (key : String) :
    ((_create_chroma_vector_store env cfg d tm key).disk.cacheDirs = d.cacheDirs ∧
     (_create_chroma_vector_store env cfg d tm key).disk.metadataFiles = d.metadataFiles ∧
     (_create_chroma_vector_store env cfg d tm key).disk.faissIndexes = d.faissIndexes) ∧
    ((_create_chroma_vector_store env cfg d tm key).result = .ok (some (.chroma key)) ∨
     ∃ msg, (_create_chroma_vector_store env cfg d tm key).result = .error msg) := by
  unfold _create_chroma_vector_store
  by_cases hcoll0 : (lookupA d.chromaColls key).isSome <;>
    · simp only [hcoll0, if_true, if_false]
      obtain ⟨⟨h1, h2, h3, h4⟩, hres⟩ := chroma_add_batches_disk_inv env key key
        (chunksOf cfg.BATCH_SIZE tm.enum) _ 0
      refine ⟨⟨by simpa using h1, by simpa using h2, by simpa using h3⟩, ?_⟩
      rcases hres with hres | ⟨msg, hres⟩
      · left
        simp [hres]
      · right
        exact ⟨msg, by simp [hres]⟩

/-- A fingerprint with no `metadata.pkl` record always misses the cache. -/
theorem load_none_of_no_metadata (d : Disk) (h : String)
    (hm : lookupA d.metadataFiles h = none) :
    load_embeddings_cache d h = none := by
  unfold load_embeddings_cache
  by_cases hc : h ∈ d.cacheDirs
  · rw [if_pos hc, hm]
  · rw [if_neg hc]

/-- C6: every dangling cache entry — directory without data, missing or
unreadable `metadata.pkl`, missing FAISS index or Chroma directory, empty
collection, unknown store type — is reported as a cache miss (`none`, never
an error), and a hit on the Chroma path is only returned when the persisted
collection is non-empty. -/
theorem c6_dangling_cache_is_miss (d : Disk) (h : String) :
    (DanglingCache d h → load_embeddings_cache d h = none) ∧
    (∀ hh md, load_embeddings_cache d h = some (.chroma hh, md) →
       0 < ((lookupA d.chromaColls h).getD []).length) := by
  constructor
  · intro hd
    unfold load_embeddings_cache
    rcases hd with hd | hd | hd | ⟨md, hmd, hd⟩
    · rw [if_neg hd]
    · by_cases hc : h ∈ d.cacheDirs
      · rw [if_pos hc, hd]
      · rw [if_neg hc]
    · by_cases hc : h ∈ d.cacheDirs
      · rw [if_pos hc, hd]
      · rw [if_neg hc]
    · by_cases hc : h ∈ d.cacheDirs
      · rw [if_pos hc, hmd]
        rcases hd with ⟨hty, hfi⟩ | ⟨hty, hsub⟩ | ⟨hty1, hty2⟩
        · simp [hty, hfi]
        · rcases hsub with hcd | hlen
          · simp [hty, hcd]
          · simp [hty, hlen]
        · simp [hty1, hty2]
      · rw [if_neg hc]
  · intro hh md hl
    by_cases hc : h ∈ d.cacheDirs
    · unfold load_embeddings_cache at hl
      rw [if_pos hc] at hl
      cases hm : lookupA d.metadataFiles h with
      | none =>
        rw [hm] at hl
        cases hl
      | some o =>
        rw [hm] at hl
        cases o with
        | none => cases hl
        | some md' =>
          by_cases hty : md'.vector_store_type.getD "faiss" = "faiss"
          · cases hfi : lookupA d.faissIndexes h with
            | none => simp [hty, hfi] at hl
            | some es => simp [hty, hfi] at hl
          · by_cases hty2 : md'.vector_store_type.getD "faiss" = "chroma"
            · by_cases hcd : h ∈ d.chromaDirs
              · by_cases hlen : ((lookupA d.chromaColls h).getD []).length = 0
                · simp [hty, hty2, hcd, hlen] at hl
                · exact Nat.pos_of_ne_zero hlen
              · simp [hty, hty2, hcd] at hl
            · simp [hty, hty2] at hl
    · unfold load_embeddings_cache at hl
      rw [if_neg hc] at hl
      cases hl

/-- C4 counterexample: a five-chunk ingestion whose second embedding batch
fails writes no cache entry (`metadata.pkl` absent, cache directory absent) —
but the four chunks of the first batch remain committed to the persisted
per-fingerprint Chroma collection, so a partial index has been written to
disk, refuting the claim that no partial index is committed. -/
theorem c4_counterexample :
    run4.result.success = false ∧
    lookupA run4.disk.metadataFiles "md5-3" = none ∧
    run4.disk.cacheDirs = [] ∧
    ((lookupA run4.disk.chromaColls "md5-3").getD []).length = 4 ∧
    load_embeddings_cache run4.disk "md5-3" = none := by
  refine ⟨by decide, by decide, by decide, by decide, by decide⟩

/-- C4 (amended): when an ingestion fails during the building phase and no
stale metadata record pre-exists for the fingerprint, no cache entry is
written (cache dirs, `metadata.pkl` records and FAISS indexes are exactly as
before), the manager's document state (`qa_chain`, `vector_store`,
`current_document`, `document_info`) is unchanged, and a later ingest of the
same bytes still misses the cache and re-runs the full build; however,
already-embedded batches may remain in the persisted Chroma collection. -/
theorem c4_failed_build_writes_no_cache (env : Env) (s0 : APIState) (d0 : Disk)
    (p : String) (c : List Nat)
    (hc : lookupA env.files p = some c)
    (hmeta : lookupA d0.metadataFiles (env.H c) = none)
    (hfail : (process_document env config s0 d0 p).result.success = false) :
    BuildFailureInvariant s0 d0 (env.H c) (process_document env config s0 d0 p) := by
  have hload0 : load_embeddings_cache d0 (env.H c) = none :=
    load_none_of_no_metadata d0 (env.H c) hmeta
  have hh : get_file_hash env p = .ok (env.H c) := by
    unfold get_file_hash
    rw [hc]
    simp [streamBytes_eq]
  cases hv : validate_pdf_file env p with
  | error e =>
    have hr : process_document env config s0 d0 p =
        ⟨⟨false, "文档处理失败: " ++ e, none⟩, s0, d0, ⟨[], [], false⟩⟩ := by
      unfold process_document
      rw [hv]
    unfold BuildFailureInvariant
    rw [hr]
    exact ⟨rfl, rfl, rfl, rfl, rfl, rfl, rfl, hload0⟩
  | ok u =>
    cases hp : lookupA env.pdfPages p with
    | none =>
      have hr : process_document env config s0 d0 p =
          ⟨⟨false, "文档处理失败: PDF解析错误", none⟩,
           { s0 with embeddings := true }, d0, ⟨[], [], false⟩⟩ := by
        unfold process_document
        simp only [hv, hh, hload0, hp]
      unfold BuildFailureInvariant
      rw [hr]
      exact ⟨rfl, rfl, rfl, rfl, rfl, rfl, rfl, hload0⟩
    | some pages =>
      by_cases hpe : pages.isEmpty
      · have hr : process_document env config s0 d0 p =
            ⟨⟨false, "文档处理失败: PDF文档为空或无法读取", none⟩,
             { s0 with embeddings := true }, d0, ⟨[], [], false⟩⟩ := by
          unfold process_document
          simp only [hv, hh, hload0, hp, hpe, if_true]
        unfold BuildFailureInvariant
        rw [hr]
        exact ⟨rfl, rfl, rfl, rfl, rfl, rfl, rfl, hload0⟩
      · have hpe' : pages.isEmpty = false := by simpa using hpe
        by_cases hce : (env.split pages).isEmpty
        · have hr : process_document env config s0 d0 p =
              ⟨⟨false, "文档处理失败: 文档分块失败", none⟩,
               { s0 with embeddings := true }, d0, ⟨[], [], true⟩⟩ := by
            unfold process_document
            simp only [hv, hh, hload0, hp, hpe', Bool.false_eq_true, if_false,
              hce, if_true]
          unfold BuildFailureInvariant
          rw [hr]
          exact ⟨rfl, rfl, rfl, rfl, rfl, rfl, rfl, hload0⟩
        · have hce' : (env.split pages).isEmpty = false := by simpa using hce
          have hcr : create_vector_store_with_batches env config d0
                (env.split pages) (env.H c) =
              _create_chroma_vector_store env config d0 (env.split pages)
                (env.H c) := by
            unfold create_vector_store_with_batches
            rw [if_pos (show config.VECTOR_STORE_TYPE = "chroma" from rfl)]
          have hr0 : process_document env config s0 d0 p =
              processBuild env config s0 p (env.H c) pages.length
                (env.split pages).length ((env.split pages).map Prod.snd)
                (_create_chroma_vector_store env config d0 (env.split pages)
                  (env.H c)) := by
            unfold process_document
            simp only [hv, hh, hload0, hp, hpe', hce', Bool.false_eq_true,
              if_false]
            rw [hcr]
          obtain ⟨⟨hca, hmf, hfi⟩, hres⟩ :=
            chroma_build_disk_inv env config d0 (env.split pages) (env.H c)
          rcases hres with hres | ⟨msg, hres⟩
          · rw [hr0] at hfail
            unfold processBuild at hfail
            rw [hres] at hfail
            unfold finish_process at hfail
            simp at hfail
          · unfold BuildFailureInvariant
            rw [hr0]
            unfold processBuild
            rw [hres]
            refine ⟨hca, hmf, hfi, rfl, rfl, rfl, rfl, ?_⟩
            apply load_none_of_no_metadata
            rw [hmf]
            exact hmeta

/-- Witness for C4 (amended) at the concrete failing five-chunk run. -/
theorem c4_witness :
    BuildFailureInvariant {} {} (env4.H [1, 2, 3])
      (process_document env4 config {} {} "doc/a.pdf") :=
  c4_failed_build_writes_no_cache env4 {} {} "doc/a.pdf" [1, 2, 3]
    (by decide) (by decide) (by decide)

/-- C1 counterexample: re-ingesting the same bytes hits the cache, but the
result of the second call reports `pages_count = 0` while the first reported
`pages_count = 1` — the page counts are not identical, refuting the claim as
stated. -/
theorem c1_counterexample :
    run1.result.success = true ∧
    resultPages run1.result = some 1 ∧
    resultChunks run1.result = some 1 ∧
    run2.result.success = true ∧
    run2.trace.embedCallSizes = [] ∧
    run2.trace.chunked = false ∧
    resultChunks run2.result = some 1 ∧
    resultPages run2.result = some 0 := by
  exact ⟨by decide, by decide, by decide, by decide, by decide, by decide,
    by decide, by decide⟩

/-- C1 (amended): ingesting the same bytes a second time computes the same
fingerprint and hits the cache — the second call performs no chunking and no
embedding calls, succeeds, loads the stored collection, and reports a chunk
count identical to the first call's — but its reported page count is `0`,
never the first call's (non-zero) page count. -/
theorem c1_reingest_hits_cache (env : Env) (s0 s1 : APIState) (d0 : Disk)
    (p : String) (c : List Nat) (pages : List Page)
    (hc : lookupA env.files p = some c)
    (hext : endsWithL (pyLower p) ".pdf" = true)
    (hp : lookupA env.pdfPages p = some pages)
    (hpne : pages ≠ [])
    (hcne : env.split pages ≠ [])
    (hsvc : ∀ k, env.svc k = none)
    (hmiss : load_embeddings_cache d0 (env.H c) = none) :
    (process_document env config s0 d0 p).result.success = true ∧
    resultPages (process_document env config s0 d0 p).result = some pages.length ∧
    resultChunks (process_document env config s0 d0 p).result =
      some (env.split pages).length ∧
    (process_document env config s0 d0 p).trace.chunked = true ∧
    (process_document env config s1 (process_document env config s0 d0 p).disk
      p).result.success = true ∧
    (process_document env config s1 (process_document env config s0 d0 p).disk
      p).trace = ⟨[], [], false⟩ ∧
    resultChunks (process_document env config s1
        (process_document env config s0 d0 p).disk p).result =
      resultChunks (process_document env config s0 d0 p).result ∧
    resultPages (process_document env config s1
        (process_document env config s0 d0 p).disk p).result = some 0 ∧
    0 < pages.length ∧
    (process_document env config s1 (process_document env config s0 d0 p).disk
      p).state.vector_store = some (.chroma (env.H c)) := by
  have hp0 : p ≠ "" := by
    intro h0
    subst h0
    exact absurd hext (by decide)
  have hv : validate_pdf_file env p = .ok () := by
    unfold validate_pdf_file
    simp [hc, hp0, hext]
  have hh : get_file_hash env p = .ok (env.H c) := by
    unfold get_file_hash
    rw [hc]
    simp [streamBytes_eq]
  have hpe' : pages.isEmpty = false := isEmpty_false_of_ne_nil hpne
  have hce' : (env.split pages).isEmpty = false := isEmpty_false_of_ne_nil hcne
  obtain ⟨coll', hbuild, hcoll'⟩ :=
    chroma_build_ok env config d0 (env.split pages) (env.H c) hsvc hcne (by decide)
  have hcr : create_vector_store_with_batches env config d0 (env.split pages)
        (env.H c) =
      ⟨.ok (some (.chroma (env.H c))),
       { d0 with chromaDirs := insertS d0.chromaDirs (env.H c), chromaColls := setA d0.chromaColls (env.H c) coll' },
       (chunksOf config.BATCH_SIZE (env.split pages).enum).map List.length, []⟩ := by
    unfold create_vector_store_with_batches
    rw [if_pos (show config.VECTOR_STORE_TYPE = "chroma" from rfl)]
    exact hbuild
  have hr1 : process_document env config s0 d0 p =
      processBuild env config s0 p (env.H c) pages.length
        (env.split pages).length ((env.split pages).map Prod.snd)
        ⟨.ok (some (.chroma (env.H c))),
         { d0 with chromaDirs := insertS d0.chromaDirs (env.H c), chromaColls := setA d0.chromaColls (env.H c) coll' },
         (chunksOf config.BATCH_SIZE (env.split pages).enum).map List.length,
         []⟩ := by
    unfold process_document
    simp only [hv, hh, hmiss, hp, hpe', Bool.false_eq_true, if_false, hce', hcr]
  have hlen0 : ¬(coll'.length = 0) := by
    intro h0
    exact hcoll' (List.eq_nil_of_length_eq_zero h0)
  have hdisk1 : (process_document env config s0 d0 p).disk =
      save_embeddings_cache
        { d0 with chromaDirs := insertS d0.chromaDirs (env.H c), chromaColls := setA d0.chromaColls (env.H c) coll' }
        config (env.H c) (some (.chroma (env.H c)))
        ((env.split pages).map Prod.snd) env.now := by
    rw [hr1]
    rfl
  have hload2 : load_embeddings_cache
      (save_embeddings_cache
        { d0 with chromaDirs := insertS d0.chromaDirs (env.H c), chromaColls := setA d0.chromaColls (env.H c) coll' }
        config (env.H c) (some (.chroma (env.H c)))
        ((env.split pages).map Prod.snd) env.now) (env.H c) =
      some (.chroma (env.H c), (env.split pages).map Prod.snd) := by
    unfold save_embeddings_cache
    unfold load_embeddings_cache
    simp only [lookupA_setA_self, Option.getD_some]
    rw [if_pos (self_mem_insertS _ _)]
    simp [hlen0, lookupA_setA_self, self_mem_insertS, config]
    intro hbad
    exact absurd hbad (by decide)
  have hload2' : load_embeddings_cache (process_document env config s0 d0 p).disk
      (env.H c) = some (.chroma (env.H c), (env.split pages).map Prod.snd) := by
    rw [hdisk1]
    exact hload2
  have hr2 : process_document env config s1
        (process_document env config s0 d0 p).disk p =
      finish_process config { s1 with embeddings := true }
        (process_document env config s0 d0 p).disk ⟨[], [], false⟩ p (env.H c) 0
        ((env.split pages).map Prod.snd).length (.chroma (env.H c)) env.now := by
    generalize hdd : (process_document env config s0 d0 p).disk = dd
    rw [hdd] at hload2'
    unfold process_document
    simp only [hv, hh, hload2']
  refine ⟨?_, ?_, ?_, ?_, ?_, ?_, ?_, ?_, List.length_pos.mpr hpne, ?_⟩
  · rw [hr1]
    rfl
  · rw [hr1]
    rfl
  · rw [hr1]
    rfl
  · rw [hr1]
    rfl
  · rw [hr2]
    rfl
  · rw [hr2]
    rfl
  · rw [hr2, hr1]
    simp [resultChunks, finish_process, processBuild, List.length_map]
  · rw [hr2]
    rfl
  · rw [hr2]
    rfl

/-- Witness for C1 (amended) at the concrete one-page ingestion `run1`/`run2`. -/
theorem c1_witness :
    run1.result.success = true ∧
    resultPages run1.result = some 1 ∧
    resultChunks run1.result =
      some (env1.split [⟨"第一页的内容", "doc/a.pdf", 0⟩]).length ∧
    run1.trace.chunked = true ∧
    run2.result.success = true ∧
    run2.trace = ⟨[], [], false⟩ ∧
    resultChunks run2.result = resultChunks run1.result ∧
    resultPages run2.result = some 0 ∧
    0 < (1 : Nat) ∧
    run2.state.vector_store = some (.chroma (env1.H [1, 2, 3])) :=
  c1_reingest_hits_cache env1 {} run1.state {} "doc/a.pdf" [1, 2, 3]
    [⟨"第一页的内容", "doc/a.pdf", 0⟩] (by decide) (by decide) (by decide)
    (by decide) (by decide) (fun k => rfl) (by decide)

/-! ### Lemmas about deletion and listing -/

theorem mem_map_id_filter (coll : List ChromaEntry) (p : ChromaEntry → Bool)
    (e : ChromaEntry) (he : e ∈ coll)
    (hnodup : (coll.map ChromaEntry.id).Nodup) :
    ((coll.filter p).map ChromaEntry.id).contains e.id = p e := by
  by_cases hp : p e = true
  · rw [hp]
    have hm1 : e ∈ coll.filter p := List.mem_filter.mpr ⟨he, hp⟩
    have hm2 : e.id ∈ (coll.filter p).map ChromaEntry.id :=
      List.mem_map_of_mem _ hm1
    exact List.elem_iff.mpr hm2
  · have hp' : p e = false := by simpa using hp
    rw [hp', Bool.eq_false_iff]
    intro hcon
    obtain ⟨e', he', hid⟩ := List.mem_map.mp (List.elem_iff.mp hcon)
    have he'c : e' ∈ coll := (List.mem_filter.mp he').1
    have hpe' : p e' = true := (List.mem_filter.mp he').2
    have heq : e' = e := List.inj_on_of_nodup_map hnodup he'c he hid
    rw [heq] at hpe'
    rw [hpe'] at hp'
    cases hp'

theorem delete_filter_eq (coll : List ChromaEntry) (name : String)
    (hnodup : (coll.map ChromaEntry.id).Nodup) :
    (coll.filter (fun e =>
      !(((coll.filter (fun x => matchesSource x name)).map ChromaEntry.id).contains e.id))) =
    coll.filter (fun e => !(matchesSource e name)) := by
  apply List.filter_congr
  intro e he
  rw [mem_map_id_filter coll (fun x => matchesSource x name) e he hnodup]

theorem mem_bumpSources_names (name : String) (added : Option Nat) (x : String) :
    ∀ (acc : List (String × Nat × Option Nat)),
      (x ∈ (bumpSources acc name added).map (fun y => y.1) ↔
        x ∈ acc.map (fun y => y.1) ∨ x = name)
  | [] => by simp [bumpSources]
  | (n, cnt, a) :: rest => by
    unfold bumpSources
    by_cases hn : n = name
    · subst hn
      rw [if_pos rfl]
      simp only [List.map_cons, List.mem_cons]
      tauto
    · rw [if_neg hn]
      simp only [List.map_cons, List.mem_cons]
      rw [mem_bumpSources_names name added x rest]
      tauto

theorem mem_collect_aux (x : String) :
    ∀ (coll : List ChromaEntry) (acc : List (String × Nat × Option Nat)),
      (x ∈ (coll.foldl (fun acc e =>
          match listKey e.metadata with
          | some nm => bumpSources acc nm e.metadata.added_at
          | none => acc) acc).map (fun y => y.1) ↔
        x ∈ acc.map (fun y => y.1) ∨ ∃ e ∈ coll, listKey e.metadata = some x)
  | [], acc => by simp
  | e :: rest, acc => by
    cases hk : listKey e.metadata with
    | none =>
      simp only [List.foldl_cons, hk]
      rw [mem_collect_aux x rest acc]
      constructor
      · rintro (h | h)
        · exact Or.inl h
        · exact Or.inr ⟨h.choose, List.mem_cons_of_mem e h.choose_spec.1, h.choose_spec.2⟩
      · rintro (h | ⟨e', he', hke'⟩)
        · exact Or.inl h
        · rcases List.mem_cons.mp he' with he0 | he0
          · subst he0
            rw [hk] at hke'
            cases hke'
          · exact Or.inr ⟨e', he0, hke'⟩
    | some nm =>
      simp only [List.foldl_cons, hk]
      rw [mem_collect_aux x rest (bumpSources acc nm e.metadata.added_at)]
      rw [mem_bumpSources_names nm e.metadata.added_at x acc]
      constructor
      · rintro ((h | h) | h)
        · exact Or.inl h
        · subst h
          exact Or.inr ⟨e, List.mem_cons_self _ _, hk⟩
        · exact Or.inr ⟨h.choose, List.mem_cons_of_mem e h.choose_spec.1, h.choose_spec.2⟩
      · rintro (h | ⟨e', he', hke'⟩)
        · exact Or.inl (Or.inl h)
        · rcases List.mem_cons.mp he' with he0 | he0
          · subst he0
            rw [hk] at hke'
            injection hke' with hx
            exact Or.inl (Or.inr hx.symm)
          · exact Or.inr ⟨e', he0, hke'⟩

theorem mem_collect_sources (coll : List ChromaEntry) (x : String) :
    x ∈ (collect_sources coll).map (fun y => y.1) ↔
      ∃ e ∈ coll, listKey e.metadata = some x := by
  have h := mem_collect_aux x coll []
  simpa [collect_sources] using h

theorem listedNames_chroma (s : APIState) (d : Disk) (key : String)
    (hvs : s.vector_store = some (.chroma key)) :
    listedNames (list_documents s d) =
      (collect_sources ((lookupA d.chromaColls key).getD [])).map (fun y => y.1) := by
  unfold list_documents listedNames
  rw [hvs]
  simp only [List.filterMap_map]
  generalize collect_sources ((lookupA d.chromaColls key).getD []) = l
  induction l with
  | nil => rfl
  | cons a t ih => simp [List.filterMap_cons, Function.comp, ih]

/-- C7 counterexample: after ingesting `doc/a.pdf`, `list()` reports the
document under `a.pdf`, but `delete_by_source("a.pdf")` fails with the
not-found error (the initial document's chunks carry only the loader's
`source` metadata, never `source_file`) and the listing still reports
`a.pdf` — deletion does not work for the initially-ingested document. -/
theorem c7_counterexample :
    run1.result.success = true ∧
    listedNames (list_documents run1.state run1.disk) = ["a.pdf"] ∧
    del7.1.success = false ∧
    del7.1.message = "未找到源文件为 a.pdf 的文档" ∧
    del7.2.2 = run1.disk ∧
    listedNames (list_documents del7.2.1 del7.2.2) = ["a.pdf"] := by
  exact ⟨by decide, by decide, by decide, by decide, by decide, by decide⟩

/-- C7 (amended): on a Chroma-backed collection with distinct record ids,
`delete_by_source(name)` removes exactly the chunks whose `source_file`
metadata equals `name` and returns their count; when no chunk matches —
which is always the case for the name of the initially-ingested document,
whose chunks carry only the loader's `source` key — it fails with the
not-found result and changes nothing.  After a successful deletion, `list()`
no longer reports `name`, provided every record listed under `name` was one
of the matching (added-by-`add`) records. -/
theorem c7_delete_by_source (cfg : Config) (s : APIState) (d : Disk)
    (key name : String) (coll : List ChromaEntry)
    (hcfg : cfg.VECTOR_STORE_TYPE = "chroma")
    (hvs : s.vector_store = some (.chroma key))
    (hcoll : lookupA d.chromaColls key = some coll)
    (hnodup : (coll.map ChromaEntry.id).Nodup)
    (honly : ∀ e ∈ coll, listKey e.metadata = some name →
      matchesSource e name = true) :
    ((coll.filter (fun e => matchesSource e name) = []) →
      (delete_document_by_source cfg s d name).1.success = false ∧
      (delete_document_by_source cfg s d name).2.1 = s ∧
      (delete_document_by_source cfg s d name).2.2 = d) ∧
    ((coll.filter (fun e => matchesSource e name) ≠ []) →
      (delete_document_by_source cfg s d name).1.success = true ∧
      (delete_document_by_source cfg s d name).1.deleted_count =
        some (coll.filter (fun e => matchesSource e name)).length ∧
      (delete_document_by_source cfg s d name).2.1 = s ∧
      lookupA (delete_document_by_source cfg s d name).2.2.chromaColls key =
        some (coll.filter (fun e => !(matchesSource e name))) ∧
      ¬ name ∈ listedNames (list_documents
          (delete_document_by_source cfg s d name).2.1
          (delete_document_by_source cfg s d name).2.2)) := by
  have hgate : ¬(cfg.VECTOR_STORE_TYPE ≠ "chroma") := by simp [hcfg]
  constructor
  · intro hmat
    have hdel : delete_document_by_source cfg s d name =
        (⟨false, "未找到源文件为 " ++ name ++ " 的文档", none⟩, s, d) := by
      unfold delete_document_by_source
      rw [if_neg hgate]
      simp only [hvs, hcoll, Option.getD_some, hmat, List.map_nil,
        List.isEmpty_nil, if_true]
    rw [hdel]
    exact ⟨rfl, rfl, rfl⟩
  · intro hmat
    have hids : ((coll.filter (fun e => matchesSource e name)).map
        ChromaEntry.id).isEmpty = false := by
      apply isEmpty_false_of_ne_nil
      intro hnil
      exact hmat (List.map_eq_nil_iff.mp hnil)
    have hdel : delete_document_by_source cfg s d name =
        (⟨true, "成功删除 " ++ toString ((coll.filter (fun e => matchesSource e name)).map ChromaEntry.id).length ++ " 个文档块",
          some ((coll.filter (fun e => matchesSource e name)).map ChromaEntry.id).length⟩, s,
         { d with chromaColls := setA d.chromaColls key (coll.filter (fun e => !(((coll.filter (fun x => matchesSource x name)).map ChromaEntry.id).contains e.id))) }) := by
      unfold delete_document_by_source
      rw [if_neg hgate]
      simp only [hvs, hcoll, Option.getD_some, hids, Bool.false_eq_true,
        if_false]
    rw [hdel, delete_filter_eq coll name hnodup]
    refine ⟨rfl, by simp [List.length_map], rfl, by rw [lookupA_setA_self], ?_⟩
    rw [listedNames_chroma s _ key hvs]
    rw [lookupA_setA_self, Option.getD_some]
    rw [mem_collect_sources]
    rintro ⟨e, he, hke⟩
    have hec : e ∈ coll := (List.mem_filter.mp he).1
    have hnm : (!(matchesSource e name)) = true := (List.mem_filter.mp he).2
    have := honly e hec hke
    rw [this] at hnm
    cases hnm

/-- Witness for C7 (amended) on the two-document collection `collW`:
deleting `b.pdf` (appended via `add_document`) succeeds, removes its one
chunk, and `b.pdf` disappears from the listing. -/
theorem c7_witness :
    ((collW.filter (fun e => matchesSource e "b.pdf") = []) →
      (delete_document_by_source config stateW diskW "b.pdf").1.success = false ∧
      (delete_document_by_source config stateW diskW "b.pdf").2.1 = stateW ∧
      (delete_document_by_source config stateW diskW "b.pdf").2.2 = diskW) ∧
    ((collW.filter (fun e => matchesSource e "b.pdf") ≠ []) →
      (delete_document_by_source config stateW diskW "b.pdf").1.success = true ∧
      (delete_document_by_source config stateW diskW "b.pdf").1.deleted_count =
        some (collW.filter (fun e => matchesSource e "b.pdf")).length ∧
      (delete_document_by_source config stateW diskW "b.pdf").2.1 = stateW ∧
      lookupA (delete_document_by_source config stateW diskW "b.pdf").2.2.chromaColls "hW" =
        some (collW.filter (fun e => !(matchesSource e "b.pdf"))) ∧
      ¬ "b.pdf" ∈ listedNames (list_documents
          (delete_document_by_source config stateW diskW "b.pdf").2.1
          (delete_document_by_source config stateW diskW "b.pdf").2.2)) :=
  c7_delete_by_source config stateW diskW "hW" "b.pdf" collW rfl rfl (by decide)
    (by decide) (by decide)

/-! ### Retry behaviour of the two build paths -/

theorem faiss_try_batch_all_fail (env : Env) (f : Nat → String)
    (hf : ∀ k, env.svc k = some (f k)) (texts : List String) :
    ∀ (l : List Nat) (n : Nat), l ≠ [] →
      faiss_try_batch env texts l n =
        ⟨.error (f (n + l.length - 1)), n + l.length,
         List.replicate l.length texts.length,
         l.dropLast.map (fun a => 2 ^ a)⟩
  | [], n, h => absurd rfl h
  | [a], n, _ => by
    unfold faiss_try_batch
    unfold embed_documents
    rw [hf n]
    simp
  | a :: b :: rest, n, _ => by
    unfold faiss_try_batch
    unfold embed_documents
    rw [hf n]
    simp only []
    rw [faiss_try_batch_all_fail env f hf texts (b :: rest) (n + 1) (by simp)]
    have h1 : n + 1 + (b :: rest).length - 1 = n + (a :: b :: rest).length - 1 := by
      simp
      omega
    have h2 : n + 1 + (b :: rest).length = n + (a :: b :: rest).length := by
      simp
      omega
    simp only [h1, h2, List.dropLast, List.map_cons]
    rw [show (a :: b :: rest).length = (b :: rest).length + 1 from rfl,
      List.replicate_succ]
    rfl

/-- C8 counterexample: during a Chroma-path build a failing embedding batch
is attempted exactly once — one external call, no backoff sleeps — and the
build aborts immediately, while the FAISS retry loop for the same service
makes `MAX_RETRIES` attempts with exponential backoff.  The claim that
failed batches are retried with backoff on both backend build paths is
false. -/
theorem c8_counterexample :
    chromaFailOut.result = .error "失败0" ∧
    chromaFailOut.callSizes = [1] ∧
    chromaFailOut.sleeps = [] ∧
    faiss_try_batch envFail ["一个文本块"] (List.range config.MAX_RETRIES) 0 =
      ⟨.error "失败2", 3, [1, 1, 1], [1, 2]⟩ := by
  exact ⟨by decide, by decide, by decide, by decide⟩

/-- C8 (amended): only the FAISS build path retries: with a service failing
every call, the per-batch FAISS retry loop makes exactly `m` attempts
(`m = MAX_RETRIES`), sleeping `2^0, …, 2^(m-2)` seconds between them, and
fails carrying the error of the last attempt; the Chroma path issues a
single attempt per batch, never sleeps, and aborts the build with the first
error. -/
theorem c8_retry_policy (env : Env) (f : Nat → String)
    (hf : ∀ k, env.svc k = some (f k)) (texts : List String) (m n : Nat)
    (hm : 0 < m) (pre key : String) (d : Disk)
    (batch : List (Nat × String × Meta))
    (rest : List (List (Nat × String × Meta))) :
    faiss_try_batch env texts (List.range m) n =
      ⟨.error (f (n + m - 1)), n + m, List.replicate m texts.length,
       (List.range (m - 1)).map (fun a => 2 ^ a)⟩ ∧
    chroma_add_batches env pre key (batch :: rest) d n =
      ⟨.error (f n), d, n + 1, [batch.length]⟩ := by
  constructor
  · have hne : List.range m ≠ [] := by
      intro h0
      rw [List.range_eq_nil] at h0
      omega
    rw [faiss_try_batch_all_fail env f hf texts (List.range m) n hne,
      List.length_range]
    obtain ⟨k, rfl⟩ : ∃ k, m = k + 1 := ⟨m - 1, by omega⟩
    rw [show k + 1 - 1 = k from rfl, List.range_succ, List.dropLast_concat]
  · unfold chroma_add_batches
    unfold embed_documents
    rw [hf n]
    simp [List.length_map]

/-- Witness for C8 (amended): three failing attempts with backoff `[1, 2]`
on the FAISS path, one failing attempt and an immediate abort on the Chroma
path. -/
theorem c8_witness :
    faiss_try_batch envFail ["块"] (List.range 3) 0 =
      ⟨.error "失败2", 3, List.replicate 3 1, [1, 2]⟩ ∧
    chroma_add_batches envFail "h" "h" [[(0, "块", m6)]] {} 0 =
      ⟨.error "失败0", {}, 1, [1]⟩ :=
  c8_retry_policy envFail (fun k => "失败" ++ toString k) (fun k => rfl) ["块"]
    3 0 (by decide) "h" "h" {} [(0, "块", m6)] []

/-- Witness for C6: a cache directory without `metadata.pkl` misses; the
valid one-vector Chroma entry loads with a positive count. -/
theorem c6_witness :
    load_embeddings_cache d_dangling "hash-dangling" = none ∧
    0 < ((lookupA d_valid.chromaColls "h6").getD []).length :=
  ⟨(c6_dangling_cache_is_miss d_dangling "hash-dangling").1
      (Or.inr (Or.inl (by decide))),
   (c6_dangling_cache_is_miss d_valid "h6").2 "h6" [m6] (by decide)⟩
